import Mathlib

/-!
Verification of the Teams Transcript Cleaner core model against its
natural-language specification.

The development shallowly embeds the business-logic core of the repository:
the CSV word-pair parser and validator (`app/models.py` `WordList.get_word_pairs`
and `validate_csv_format`, duplicated verbatim in `app/wordlists/routes.py`),
the word-list version store (`WordList.create_version`, `get_history` and the
`restore_version` route), the correction-job lifecycle and user budget ledger
(`CorrectionJob.mark_as_*`, `User.can_use_api`, `User.add_api_cost`, and the
`/api/process` route `process_transcript`), and the chunking helper
`split_text` from `processing/openai_service.py`.

Conventions of the embedding:
- Python strings are Lean `String`s; character-level work happens on `.data`.
- Python `Decimal` money values are `ℚ`.  Python `Decimal` addition is exact
  for the magnitudes involved (well inside the default 28-digit context), so
  rational addition models it faithfully; `Decimal(str(cost))` applied to a
  value that is already a `Decimal` is the identity.
- `datetime.utcnow()` is an abstract clock value passed in as a `Nat`.
- The database session is explicit state: the word-list table is a
  `List WLRow`, and each operation returns the updated table.
- `csv.reader` is modelled for quote-free content (the content exercised by
  the spec): rows are the newline-separated lines (a trailing newline does not
  produce an extra row, matching the csv module), and cells are the
  comma-separated fields of a line.  The only divergence is that the csv
  module turns a blank line into a zero-cell row while this model yields a
  single empty cell; every consumer in the source only tests `len(row) >= 2`
  and reads the first two cells, for which the two representations agree.
-/

/-- Python `str.isspace` characters stripped by `str.strip()`. -/
def pyIsSpace (c : Char) : Bool :=
  c = ' ' || c = '\t' || c = '\n' || c = '\r' || c = '\x0b' || c = '\x0c'

/-- Python `str.strip()`: drop whitespace from both ends. -/
def pyStrip (s : String) : String :=
  String.mk (((s.data.dropWhile pyIsSpace).reverse.dropWhile pyIsSpace).reverse)

/-- Split a character list at every occurrence of a single separator
character (Python `str.split(c)`). Always returns a non-empty list. -/
def splitOnChar (c : Char) : List Char → List (List Char)
  | [] => [[]]
  | x :: xs =>
    match splitOnChar c xs with
    | [] => [[]]
    | r :: rs => if x = c then [] :: r :: rs else (x :: r) :: rs

/-- The lines the `csv` module iterates over for quote-free content: split on
newline; a trailing newline does not contribute a final empty row. -/
def csvLines (s : String) : List (List Char) :=
  let ls := splitOnChar '\n' s.data
  if ls.getLast? = some [] then ls.dropLast else ls

/-- Rows as produced by `csv.reader(io.StringIO(content))` on quote-free
content: each line split on commas. -/
def csvRows (s : String) : List (List String) :=
  (csvLines s).map (fun l => (splitOnChar ',' l).map String.mk)

/-- A parsed word pair (`{'incorrect': ..., 'correct': ...}` in the source). -/
structure WordPair where
  incorrect : String
  correct : String
deriving DecidableEq, Repr

/-- The loop body of `WordList.get_word_pairs`: a row with at least two cells
yields a pair of its first two cells, stripped; shorter rows yield nothing.
The source has no non-emptiness test on the cells. -/
def row_pair (row : List String) : Option WordPair :=
  match row with
  | c0 :: c1 :: _ => some ⟨pyStrip c0, pyStrip c1⟩
  | _ => none

/-- Row-level core of `WordList.get_word_pairs`: skip the header row, keep one
pair per remaining row with at least two cells. -/
def get_word_pairs_rows (rows : List (List String)) : List WordPair :=
  match rows with
  | [] => []
  | _header :: dataRows => dataRows.filterMap row_pair

/-- `WordList.get_word_pairs` (`app/models.py`). -/
def get_word_pairs (csv_content : String) : List WordPair :=
  get_word_pairs_rows (csvRows csv_content)

/-- The per-row parse as the specification describes it: additionally to
`row_pair`, rows whose first or second cell is empty after trimming are
"silently skipped".  Stated only to be compared with `row_pair`, which is
taken from the source. -/
def row_pair_spec (row : List String) : Option WordPair :=
  match row with
  | c0 :: c1 :: _ =>
    if pyStrip c0 ≠ "" ∧ pyStrip c1 ≠ "" then some ⟨pyStrip c0, pyStrip c1⟩ else none
  | _ => none

/-- The parser as the specification describes it, over rows. -/
def get_word_pairs_spec_rows (rows : List (List String)) : List WordPair :=
  match rows with
  | [] => []
  | _header :: dataRows => dataRows.filterMap row_pair_spec

/-- Spec-described parser over raw text; compare with `get_word_pairs`. -/
def get_word_pairs_spec (csv_content : String) : List WordPair :=
  get_word_pairs_spec_rows (csvRows csv_content)

/-- Error text used when the header has fewer than two columns. -/
def headerMsg : String := "CSV must have at least 2 columns"

/-- Error text used when no data row follows the header. -/
def noDataMsg : String := "CSV must contain at least one data row"

/-- The error contributed by one data row (`validate_csv_format` loop body):
short rows get the column-count error, rows whose first or second cell strips
to empty get the values error, well-formed rows contribute nothing. -/
def row_error (row_num : Nat) (row : List String) : List String :=
  match row with
  | c0 :: c1 :: _ =>
    if pyStrip c0 = "" || pyStrip c1 = "" then
      ["Row " ++ toString row_num ++ ": Both columns must have values"]
    else []
  | _ => ["Row " ++ toString row_num ++ ": Must have at least 2 columns"]

/-- Accumulated per-row errors, numbering rows from `n`
(`enumerate(csv_reader, start=2)` in the source). -/
def data_row_errors : Nat → List (List String) → List String
  | _, [] => []
  | n, row :: rest => row_error n row ++ data_row_errors (n + 1) rest

/-- Row-level core of `validate_csv_format` (identical in `app/models.py` and
`app/wordlists/routes.py`): header error, then accumulated per-row errors,
then the no-data-row error when the header is followed by zero rows.  Note
that `row_count` in the source counts every data row, malformed or not. -/
def validate_csv_format_rows (rows : List (List String)) : List String :=
  (match rows with
   | [] => [headerMsg]
   | header :: _ => if header.length < 2 then [headerMsg] else []) ++
  data_row_errors 2 rows.tail ++
  (if rows.tail.length = 0 then [noDataMsg] else [])

/-- `validate_csv_format` over the raw CSV text. -/
def validate_csv_format (csv_content : String) : List String :=
  validate_csv_format_rows (csvRows csv_content)

/-!  Word-list version store (`WordList` rows and their operations). -/

/-- One row of the `wordlists` table, restricted to the columns the version
chain logic reads or writes. -/
structure WLRow where
  id : Nat
  user_id : Nat
  name : String
  description : String
  csv_content : String
  version : Nat
  parent_wordlist_id : Option Nat
  usage_count : Nat
  is_active : Bool
deriving DecidableEq, Repr

/-- Root creation (`WordList(...)` plus commit in the create and upload
routes): a fresh row with the column defaults `version=1`,
`parent_wordlist_id=NULL`, `is_active=True`. -/
def create_root (db : List WLRow) (user_id : Nat) (name description csv_content : String)
    (newId : Nat) : List WLRow × WLRow :=
  let w : WLRow :=
    { id := newId, user_id := user_id, name := name, description := description
      csv_content := csv_content, version := 1, parent_wordlist_id := none
      usage_count := 0, is_active := true }
  (db ++ [w], w)

/-- `WordList.create_version`: a new row with `version = self.version + 1` and
`parent_wordlist_id = self.id`, active; the receiver row is deactivated in the
same commit.  The `description or self.description` fallback is modelled with
`Option.getD`. -/
def create_version (db : List WLRow) (self : WLRow) (new_csv_content : String)
    (description : Option String) (newId : Nat) : List WLRow × WLRow :=
  let new_version : WLRow :=
    { id := newId, user_id := self.user_id, name := self.name
      description := description.getD self.description
      csv_content := new_csv_content, version := self.version + 1
      parent_wordlist_id := some self.id, usage_count := 0, is_active := true }
  (db.map (fun r => if r.id = self.id then { r with is_active := false } else r) ++ [new_version],
   new_version)

/-- The `history_versions` relationship: the rows whose
`parent_wordlist_id` is this row's id (direct children only). -/
def history_versions (db : List WLRow) (w : WLRow) : List WLRow :=
  db.filter (fun r => r.parent_wordlist_id == some w.id)

/-- Descending insertion by `version`, modelling `order_by(version.desc())`. -/
def insert_version_desc (w : WLRow) : List WLRow → List WLRow
  | [] => [w]
  | x :: xs => if x.version ≤ w.version then w :: x :: xs else x :: insert_version_desc w xs

/-- Sort rows by `version` descending. -/
def sort_version_desc : List WLRow → List WLRow
  | [] => []
  | x :: xs => insert_version_desc x (sort_version_desc xs)

/-- `WordList.get_history`: if this row has a parent, look the parent up and
return the parent's `history_versions` (its direct children) newest first;
otherwise return this row's own direct children newest first.  A dangling
parent id (which would raise in Python) is modelled as the empty list; no
claim exercises it. -/
def get_history (db : List WLRow) (self : WLRow) : List WLRow :=
  match self.parent_wordlist_id with
  | some pid =>
    match db.find? (fun r => r.id == pid) with
    | some parent => sort_version_desc (history_versions db parent)
    | none => []
  | none => sort_version_desc (history_versions db self)

/-- The `restore_version` route: look up the addressed wordlist row and the
row to restore by id and owner (with no `is_active` filter on either), then
call `create_version` on the addressed row with the restored content.
`none` models the 404 when either lookup fails. -/
def restore_version (db : List WLRow) (user_id : Nat) (id vid : Nat)
    (newId : Nat) : Option (List WLRow × WLRow) :=
  match db.find? (fun r => r.id == id && r.user_id == user_id),
        db.find? (fun r => r.id == vid && r.user_id == user_id) with
  | some wordlist, some version_to_restore =>
    some (create_version db wordlist version_to_restore.csv_content
      (some ("バージョン " ++ toString version_to_restore.version ++ " から復元")) newId)
  | _, _ => none

/-- The spec scenario: word-list "Sample" created as version 1. -/
def sampleDb1 : List WLRow × WLRow :=
  create_root [] 1 "Sample" "" "incorrect,correct\nTeh,The\n" 1

/-- First edit of the active version: version 2. -/
def sampleDb2 : List WLRow × WLRow :=
  create_version sampleDb1.1 sampleDb1.2 "incorrect,correct\nTeh,Thee\n" none 2

/-- Second edit of the (now) active version: version 3. -/
def sampleDb3 : List WLRow × WLRow :=
  create_version sampleDb2.1 sampleDb2.2 "incorrect,correct\nTeh,Th\n" none 3

/-!  User budget ledger and correction-job lifecycle. -/

/-- The budget-ledger facet of the `users` table: cumulative spend
(`Numeric(10,4)`) and the usage limit (`Numeric(10,2)`), both Python
`Decimal`s, modelled exactly as rationals. -/
structure User where
  total_api_cost : ℚ
  api_usage_limit : ℚ
deriving DecidableEq, Repr

/-- `User.can_use_api`: spend plus the estimated cost must not exceed the
limit (the source's default estimate is `Decimal('0.01')`). -/
def can_use_api (u : User) (estimated_cost : ℚ) : Bool :=
  decide (u.total_api_cost + estimated_cost ≤ u.api_usage_limit)

/-- `User.add_api_cost`: exact decimal accumulation
(`total_api_cost += Decimal(str(cost))`; `Decimal(str(·))` is the identity on
a value that is already decimal). -/
def add_api_cost (u : User) (cost : ℚ) : User :=
  { u with total_api_cost := u.total_api_cost + cost }

/-- `n` successive ledger charges of the same cost. -/
def iterate_charge (cost : ℚ) : Nat → User → User
  | 0, u => u
  | n + 1, u => iterate_charge cost n (add_api_cost u cost)

/-- Correction-job statuses. -/
inductive JobStatus
  | pending
  | processing
  | completed
  | failed
  | cancelled
deriving DecidableEq, Repr

/-- One row of the `correction_jobs` table, restricted to the columns the
lifecycle logic touches.  Timestamps are abstract clock values. -/
structure CorrectionJob where
  user_id : Nat
  transcript_id : Nat
  wordlist_id : Option Nat
  processing_mode : String
  custom_prompt : String
  model_used : String
  status : JobStatus
  corrected_content : Option String
  cost : ℚ
  input_tokens : Nat
  output_tokens : Nat
  error_message : Option String
  retry_count : Nat
  started_at : Option Nat
  completed_at : Option Nat
deriving DecidableEq, Repr

/-- `CorrectionJob.mark_as_processing`. -/
def mark_as_processing (j : CorrectionJob) (now : Nat) : CorrectionJob :=
  { j with status := .processing, started_at := some now }

/-- `CorrectionJob.mark_as_completed` together with the ledger charge it
performs (`self.user.add_api_cost(cost)`): returns the updated job row and
the updated owner. -/
def mark_as_completed (j : CorrectionJob) (owner : User) (corrected_content : String)
    (cost : ℚ) (input_tokens output_tokens : Nat) (now : Nat) : CorrectionJob × User :=
  ({ j with
      status := .completed, corrected_content := some corrected_content,
      cost := cost, input_tokens := input_tokens, output_tokens := output_tokens,
      completed_at := some now },
   add_api_cost owner cost)

/-- `CorrectionJob.mark_as_failed`: records the error text and the completion
time; it takes no user and performs no ledger mutation. -/
def mark_as_failed (j : CorrectionJob) (error_message : String) (now : Nat) : CorrectionJob :=
  { j with status := .failed, error_message := some error_message, completed_at := some now }

/-- The job the `/api/process` route creates before calling the external
service: status is set to `'processing'` directly at creation, with no call
to `can_use_api` and no recorded start time. -/
def process_created_job (user_id transcript_id : Nat)
    (processing_mode custom_prompt model_used : String) : CorrectionJob :=
  { user_id := user_id, transcript_id := transcript_id, wordlist_id := none
    processing_mode := processing_mode, custom_prompt := custom_prompt
    model_used := model_used, status := .processing, corrected_content := none
    cost := 0, input_tokens := 0, output_tokens := 0, error_message := none
    retry_count := 0, started_at := none, completed_at := none }

/-- Result of one `/api/process` request: the persisted job row, the owner's
ledger state, and the HTTP status returned. -/
structure ProcessOutcome where
  job : CorrectionJob
  owner : User
  http_status : Nat
deriving DecidableEq, Repr

/-- The `/api/process` route (`process_transcript` in `app/api/routes.py`).
The external `correct_text` call is the `service_result` parameter: `.ok`
carries `(corrected_text, cost, prompt_tokens, completion_tokens)`, `.error`
the exception text.  On success the route marks the job completed with the
cost and completion time and adds the cost to the owner's total; on failure
it sets only `status='failed'` and the error message (no `completed_at`, no
ledger change).  The route's assignments to `job.prompt_tokens` and
`job.completion_tokens` write attributes that are not columns of the model,
so they persist nothing and are not part of the job row here. -/
def process_transcript (owner : User) (user_id transcript_id : Nat)
    (processing_mode custom_prompt model_used : String)
    (service_result : Except String (String × ℚ × Nat × Nat)) (now : Nat) : ProcessOutcome :=
  let job := process_created_job user_id transcript_id processing_mode custom_prompt model_used
  match service_result with
  | .ok (corrected_content, cost, _prompt_tokens, _completion_tokens) =>
    { job := { job with
                status := .completed, corrected_content := some corrected_content,
                cost := cost, completed_at := some now },
      owner := add_api_cost owner cost,
      http_status := 200 }
  | .error e =>
    { job := { job with status := .failed, error_message := some e }
      owner := owner
      http_status := 500 }

/-!  Text chunking (`split_text` in `processing/openai_service.py`). -/

/-- Python `sep.join(chunks)` at the character-list level. -/
def pyJoinSep (sep : List Char) : List (List Char) → List Char
  | [] => []
  | [c] => c
  | c :: cs => c ++ sep ++ pyJoinSep sep cs

/-- Python `text.split(ab)` for a two-character separator: non-overlapping
splitting from the left.  Always returns a non-empty list. -/
def pySplit2 (a b : Char) : List Char → List (List Char)
  | [] => [[]]
  | [x] => [[x]]
  | x :: y :: xs =>
    if x = a && y = b then
      [] :: pySplit2 a b xs
    else
      match pySplit2 a b (y :: xs) with
      | [] => [[x]]
      | r :: rs => (x :: r) :: rs

/-- The paragraph loop of `split_text`: visit each paragraph; if adding it
would exceed the budget and the current chunk is non-empty, flush the chunk
(joined with a blank line) and reset; then append the paragraph and its token
count.  The trailing non-empty chunk is flushed at the end. -/
def split_text_go (tok : List Char → Nat) (max_tokens : Nat) :
    List (List Char) → List (List Char) → Nat → List (List Char)
  | [], current_chunk, _ =>
    if current_chunk.isEmpty then [] else [pyJoinSep ['\n', '\n'] current_chunk]
  | p :: ps, current_chunk, current_tokens =>
    if current_tokens + tok p > max_tokens && !current_chunk.isEmpty then
      pyJoinSep ['\n', '\n'] current_chunk :: split_text_go tok max_tokens ps [p] (tok p)
    else
      split_text_go tok max_tokens ps (current_chunk ++ [p]) (current_tokens + tok p)

/-- `split_text`: split the text into paragraphs on blank lines and regroup
them into chunks.  `count_tokens` calls an external tokenizer, so it is the
abstract parameter `tok`. -/
def split_text (tok : List Char → Nat) (max_tokens : Nat) (text : List Char) :
    List (List Char) :=
  split_text_go tok max_tokens (pySplit2 '\n' '\n' text) [] 0

/-!  Helper lemmas. -/

/-- A row-numbered validation message never equals a message that starts with
the letter C. -/
theorem row_msg_ne_aux (n : Nat) (s : String) (t : String) (ht : t.data.head? = some 'C') :
    ("Row " ++ toString n ++ s) ≠ t := by
  intro h
  have h2 := congrArg (fun z => z.data.head?) h
  have hr : "Row ".data = ['R', 'o', 'w', ' '] := rfl
  simp only [String.data_append, hr, ht, List.cons_append, List.head?_cons] at h2
  exact absurd (Option.some.inj h2) (by decide)

/-- The no-data-row message starts with the letter C. -/
theorem noData_head : noDataMsg.data.head? = some 'C' := rfl

/-- The per-row errors never contain the no-data-row message. -/
theorem noData_notin_row_error (n : Nat) (row : List String) :
    noDataMsg ∉ row_error n row := by
  rcases row with _ | ⟨c0, _ | ⟨c1, cs⟩⟩ <;> intro h <;> simp only [row_error] at h
  · exact row_msg_ne_aux n _ _ noData_head (List.mem_singleton.mp h).symm
  · exact row_msg_ne_aux n _ _ noData_head (List.mem_singleton.mp h).symm
  · split at h
    · exact row_msg_ne_aux n _ _ noData_head (List.mem_singleton.mp h).symm
    · simp at h

/-- The accumulated per-row errors never contain the no-data-row message. -/
theorem noData_notin_row_errors (l : List (List String)) :
    ∀ n, noDataMsg ∉ data_row_errors n l := by
  induction l with
  | nil => intro n h; simp [data_row_errors] at h
  | cons row rest ih =>
    intro n h
    rw [data_row_errors, List.mem_append] at h
    exact h.elim (noData_notin_row_error n row) (ih (n + 1))

/-- The no-data-row error is reported exactly when the header is followed by
zero data rows; rows that are themselves malformed still count as rows. -/
theorem noData_mem_iff (header : List String) (dataRows : List (List String)) :
    noDataMsg ∈ validate_csv_format_rows (header :: dataRows) ↔ dataRows = [] := by
  rw [validate_csv_format_rows]
  simp only [List.tail_cons, List.mem_append]
  constructor
  · rintro ((h | h) | h)
    · exfalso
      split at h
      · exact absurd (List.mem_singleton.mp h) (by decide)
      · simp at h
    · exact absurd h (noData_notin_row_errors dataRows 2)
    · split at h
      · next hlen => exact List.length_eq_zero.mp hlen
      · simp at h
  · intro h
    subst h
    right
    simp [data_row_errors]

/-- On rows that all have at least two cells, `filterMap row_pair` keeps every
row, pairing its first two stripped cells, in order. -/
theorem filterMap_row_pair (dataRows : List (List String))
    (h : ∀ row ∈ dataRows, 2 ≤ row.length) :
    dataRows.filterMap row_pair
      = dataRows.map (fun row => ⟨pyStrip (row.getD 0 ""), pyStrip (row.getD 1 "")⟩) := by
  induction dataRows with
  | nil => rfl
  | cons row rest ih =>
    rcases row with _ | ⟨c0, _ | ⟨c1, cs⟩⟩
    · exact absurd (h [] (List.mem_cons_self _ _)) (by simp)
    · exact absurd (h [c0] (List.mem_cons_self _ _)) (by simp)
    · rw [List.filterMap_cons, List.map_cons]
      rw [ih (fun r hr => h r (List.mem_cons_of_mem _ hr))]
      rfl

/-- `n` successive exact-decimal charges add `n` times the cost. -/
theorem iterate_charge_total (c : ℚ) (n : Nat) (u : User) :
    (iterate_charge c n u).total_api_cost = u.total_api_cost + n * c := by
  induction n generalizing u with
  | zero => simp [iterate_charge]
  | succ k ih =>
    rw [iterate_charge, ih]
    simp only [add_api_cost]
    push_cast
    ring

/-- `pySplit2` always returns at least one piece. -/
theorem pySplit2_ne_nil (a b : Char) (l : List Char) : pySplit2 a b l ≠ [] := by
  match l with
  | [] => simp [pySplit2]
  | [x] => simp [pySplit2]
  | x :: y :: xs =>
    rw [pySplit2]
    split
    · simp
    · split <;> simp

/-- Prepending a character to the first piece prepends it to the join. -/
theorem pyJoin_cons_cons (sep : List Char) (x : Char) (r : List Char) (rs : List (List Char)) :
    pyJoinSep sep ((x :: r) :: rs) = x :: pyJoinSep sep (r :: rs) := by
  cases rs <;> simp [pyJoinSep]

/-- Joining the pieces of a split restores the original character list
(Python: `sep.join(text.split(sep)) == text`). -/
theorem pyJoin_pySplit2 (a b : Char) (l : List Char) :
    pyJoinSep [a, b] (pySplit2 a b l) = l := by
  match l with
  | [] => rfl
  | [x] => rfl
  | x :: y :: xs =>
    rw [pySplit2]
    split
    · next hcond =>
      obtain ⟨r, rs, hrs⟩ := List.exists_cons_of_ne_nil (pySplit2_ne_nil a b xs)
      have ih := pyJoin_pySplit2 a b xs
      rw [hrs] at ih ⊢
      simp only [pyJoinSep, List.nil_append, List.cons_append]
      rw [ih]
      simp only [Bool.and_eq_true, decide_eq_true_eq] at hcond
      rw [hcond.1, hcond.2]
    · next hcond =>
      obtain ⟨r, rs, hrs⟩ := List.exists_cons_of_ne_nil (pySplit2_ne_nil a b (y :: xs))
      have ih := pyJoin_pySplit2 a b (y :: xs)
      rw [hrs] at ih ⊢
      rw [pyJoin_cons_cons, ih]

/-- Joining a concatenation of two non-empty piece lists splits into the two
joins around one separator. -/
theorem pyJoinSep_append (sep : List Char) (l1 l2 : List (List Char))
    (h1 : l1 ≠ []) (h2 : l2 ≠ []) :
    pyJoinSep sep (l1 ++ l2) = pyJoinSep sep l1 ++ sep ++ pyJoinSep sep l2 := by
  induction l1 with
  | nil => contradiction
  | cons c cs ih =>
    cases cs with
    | nil =>
      obtain ⟨d, ds, rfl⟩ := List.exists_cons_of_ne_nil h2
      simp [pyJoinSep]
    | cons c2 cs2 =>
      have ih2 := ih (by simp)
      calc pyJoinSep sep ((c :: c2 :: cs2) ++ l2)
          = c ++ sep ++ pyJoinSep sep ((c2 :: cs2) ++ l2) := by
            simp [pyJoinSep, List.cons_append]
        _ = c ++ sep ++ (pyJoinSep sep (c2 :: cs2) ++ sep ++ pyJoinSep sep l2) := by
            rw [ih2]
        _ = pyJoinSep sep (c :: c2 :: cs2) ++ sep ++ pyJoinSep sep l2 := by
            simp [pyJoinSep, List.append_assoc]

/-- The chunking loop never returns an empty chunk list when the current
chunk is non-empty. -/
theorem split_text_go_ne_nil (tok : List Char → Nat) (max_tokens : Nat)
    (ps : List (List Char)) :
    ∀ cur t, cur ≠ [] → split_text_go tok max_tokens ps cur t ≠ [] := by
  induction ps with
  | nil =>
    intro cur t hcur
    rw [split_text_go]
    simp [List.isEmpty_iff, hcur]
  | cons p ps ih =>
    intro cur t hcur
    rw [split_text_go]
    split
    · simp
    · exact ih _ _ (by simp)

/-- Joining the chunks produced by the loop equals joining the pending chunk
followed by the remaining paragraphs. -/
theorem pyJoin_split_text_go (tok : List Char → Nat) (max_tokens : Nat)
    (ps : List (List Char)) :
    ∀ cur t, cur ≠ [] →
      pyJoinSep ['\n', '\n'] (split_text_go tok max_tokens ps cur t)
        = pyJoinSep ['\n', '\n'] (cur ++ ps) := by
  induction ps with
  | nil =>
    intro cur t hcur
    rw [split_text_go]
    simp [List.isEmpty_iff, hcur, pyJoinSep]
  | cons p ps ih =>
    intro cur t hcur
    rw [split_text_go]
    split
    · have hne := split_text_go_ne_nil tok max_tokens ps [p] (tok p) (by simp)
      obtain ⟨r, rs, hrs⟩ := List.exists_cons_of_ne_nil hne
      rw [hrs]
      have ih2 := ih [p] (tok p) (by simp)
      rw [hrs] at ih2
      calc pyJoinSep ['\n', '\n'] (pyJoinSep ['\n', '\n'] cur :: r :: rs)
          = pyJoinSep ['\n', '\n'] cur ++ ['\n', '\n'] ++ pyJoinSep ['\n', '\n'] (r :: rs) := by
            simp [pyJoinSep]
        _ = pyJoinSep ['\n', '\n'] cur ++ ['\n', '\n'] ++ pyJoinSep ['\n', '\n'] ([p] ++ ps) := by
            rw [ih2]
        _ = pyJoinSep ['\n', '\n'] (cur ++ p :: ps) := by
            rw [show p :: ps = [p] ++ ps from rfl,
              pyJoinSep_append ['\n', '\n'] cur ([p] ++ ps) hcur (by simp)]
    · rw [ih (cur ++ [p]) _ (by simp)]
      simp

/-!  Claim theorems. -/

/-- Claim C1.  The claim states that a job may enter `processing` only when
`spend + estimate ≤ limit` and that the transition is refused otherwise.  The
source implements the check (`can_use_api`) but the `/api/process` route never
calls it: the job is created with status `processing` for every owner, and a
completed call even pushes the ledger past the limit.  The user below has
spend 9.99 against a limit of 10.00 and the estimate is 0.02, the refusal
scenario of the specification. -/
theorem budget_gate_absent_in_process_route :
    can_use_api ⟨999/100, 10⟩ (2/100) = false ∧
    (∀ (uid tid : Nat) (mode prompt model : String),
      (process_created_job uid tid mode prompt model).status = JobStatus.processing) ∧
    (10 : ℚ) < (process_transcript ⟨999/100, 10⟩ 1 1 "proofreading" "" "gpt-4o"
      (.ok ("x", 2/100, 5, 5)) 0).owner.total_api_cost := by
  refine ⟨?_, fun _ _ _ _ _ => rfl, ?_⟩
  · simp only [can_use_api, decide_eq_false_iff_not]
    norm_num
  · simp only [process_transcript, add_api_cost]
    norm_num

/-- Claim C2.  On a successful external call the owner's cumulative spend
increases by exactly the actual cost and the job completes; on an external
error the job fails with the provider's message stored verbatim and the
owner's ledger is unchanged.  The same holds for the model method
`mark_as_completed`, the only other charging path. -/
theorem ledger_charged_once_on_completion :
    (∀ (owner : User) (uid tid : Nat) (mode prompt model : String)
       (text : String) (cost : ℚ) (pt ct now : Nat),
      (process_transcript owner uid tid mode prompt model (.ok (text, cost, pt, ct)) now).owner.total_api_cost
          = owner.total_api_cost + cost ∧
      (process_transcript owner uid tid mode prompt model (.ok (text, cost, pt, ct)) now).job.status
          = JobStatus.completed) ∧
    (∀ (owner : User) (uid tid : Nat) (mode prompt model : String) (e : String) (now : Nat),
      (process_transcript owner uid tid mode prompt model (.error e) now).owner = owner ∧
      (process_transcript owner uid tid mode prompt model (.error e) now).job.status
          = JobStatus.failed ∧
      (process_transcript owner uid tid mode prompt model (.error e) now).job.error_message
          = some e) ∧
    (∀ (j : CorrectionJob) (owner : User) (content : String) (cost : ℚ) (it ot now : Nat),
      (mark_as_completed j owner content cost it ot now).2.total_api_cost
          = owner.total_api_cost + cost ∧
      (mark_as_completed j owner content cost it ot now).1.status = JobStatus.completed) :=
  ⟨fun _ _ _ _ _ _ _ _ _ _ _ => ⟨rfl, rfl⟩,
   fun _ _ _ _ _ _ _ _ => ⟨rfl, rfl, rfl⟩,
   fun _ _ _ _ _ _ _ => ⟨rfl, rfl⟩⟩

/-- Claim C3.  The claim states `completed_at` is set iff the status is
terminal.  The model method `mark_as_failed` maintains this, but the
`/api/process` failure handler sets `status='failed'` without setting
`completed_at`, so a job that failed through the route violates the
invariant. -/
theorem completed_at_missing_on_route_failure :
    ((process_transcript ⟨0, 10⟩ 1 1 "proofreading" "" "gpt-4o"
        (.error "rate limited") 7).job.status = JobStatus.failed ∧
     (process_transcript ⟨0, 10⟩ 1 1 "proofreading" "" "gpt-4o"
        (.error "rate limited") 7).job.completed_at = none) ∧
    (∀ (j : CorrectionJob) (msg : String) (now : Nat),
      (mark_as_failed j msg now).status = JobStatus.failed ∧
      (mark_as_failed j msg now).completed_at = some now) :=
  ⟨⟨rfl, rfl⟩, fun _ _ _ => ⟨rfl, rfl⟩⟩

/-- Claim C4.  The claim states `get_history` returns every version sharing
the root, newest first, so a chain built by two edits yields [3, 2, 1].  In
the source each version's `parent_wordlist_id` is its direct predecessor, and
`get_history` only collects the direct children of the queried row's parent:
on the three-version chain of the specification scenario it returns just
[3]. -/
theorem get_history_returns_single_version :
    sampleDb3.1.map WLRow.version = [1, 2, 3] ∧
    (sampleDb3.1.filter (·.is_active)).map WLRow.version = [3] ∧
    (get_history sampleDb3.1 sampleDb3.2).map WLRow.version = [3] ∧
    (get_history sampleDb3.1 sampleDb3.2).map WLRow.version ≠ [3, 2, 1] := by
  decide

/-- Claim C5 counterexample.  In a chain with version 1 inactive and version 2
active, invoking the restore route with the inactive version's id as the
addressed wordlist deactivates only that already-inactive row and adds a new
active row, leaving two active versions in the chain. -/
theorem restore_inactive_breaks_single_active :
    (sampleDb2.1.filter (·.is_active)).length = 1 ∧
    (restore_version sampleDb2.1 1 1 1 3).map (fun p => (p.1.filter (·.is_active)).length)
      = some 2 := by
  decide

/-- Claim C5 as amended.  `create_version` (and therefore the edit and restore
operations, which call it) preserves the exactly-one-active invariant
whenever the receiver is the active version: the unique active row is
deactivated and the one new row is active. -/
theorem create_version_preserves_single_active (db : List WLRow) (self : WLRow)
    (content : String) (d : Option String) (newId : Nat)
    (hmem : self ∈ db) (hact : self.is_active = true)
    (hone : (db.filter (·.is_active)).length = 1) :
    ((create_version db self content d newId).1.filter (·.is_active)).length = 1 := by
  have hself : db.filter (·.is_active) = [self] := by
    have hm : self ∈ db.filter (·.is_active) := List.mem_filter.mpr ⟨hmem, by simp [hact]⟩
    rcases List.length_eq_one.mp hone with ⟨a, ha⟩
    rw [ha] at hm ⊢
    rw [List.mem_singleton.mp hm]
  have hall : ∀ r ∈ db, r.is_active = true → r = self := by
    intro r hr hra
    have hmem2 : r ∈ db.filter (·.is_active) := List.mem_filter.mpr ⟨hr, by simp [hra]⟩
    rw [hself] at hmem2
    exact List.mem_singleton.mp hmem2
  rw [create_version]
  simp only [List.filter_append]
  have hmap : ((db.map (fun r => if r.id = self.id then { r with is_active := false } else r)).filter
      (·.is_active)) = [] := by
    rw [List.filter_eq_nil_iff]
    intro a ha
    rw [List.mem_map] at ha
    obtain ⟨x, hx, rfl⟩ := ha
    by_cases hxa : x.is_active = true
    · have hxs := hall x hx hxa
      subst hxs
      simp
    · by_cases hid : x.id = self.id
      · simp [hid]
      · simp [hid, hxa]
  rw [hmap]
  rfl

/-- Claim C5 witness: the preservation theorem applied to the one-row chain
of the scenario. -/
theorem create_version_preserves_single_active_witness :
    sampleDb1.2 ∈ sampleDb1.1 ∧ sampleDb1.2.is_active = true ∧
    (sampleDb1.1.filter (·.is_active)).length = 1 ∧
    ((create_version sampleDb1.1 sampleDb1.2 "incorrect,correct\nA,B\n" none 2).1.filter
      (·.is_active)).length = 1 :=
  ⟨by decide, by decide, by decide,
   create_version_preserves_single_active sampleDb1.1 sampleDb1.2
     "incorrect,correct\nA,B\n" none 2 (by decide) (by decide) (by decide)⟩

/-- Claim C6 counterexample.  The claim states rows with an empty first or
second cell are silently skipped by the parser.  The source only tests
`len(row) >= 2`, so the row ",missing" yields the pair ("", "missing") where
the spec-described parser yields nothing. -/
theorem get_word_pairs_keeps_empty_cells :
    get_word_pairs "incorrect,correct\n,missing\n" = [⟨"", "missing"⟩] ∧
    get_word_pairs_spec "incorrect,correct\n,missing\n" = [] ∧
    get_word_pairs "incorrect,correct\n,missing\n"
      ≠ get_word_pairs_spec "incorrect,correct\n,missing\n" := by
  decide

/-- Claim C6 as amended.  The parser discards the header and yields one pair
per data row with at least two cells — including rows whose cells strip to
empty — pairing the stripped first two cells in row order; in particular a
header plus N such rows yields exactly N pairs. -/
theorem get_word_pairs_one_per_wide_row (header : List String)
    (dataRows : List (List String)) (h : ∀ row ∈ dataRows, 2 ≤ row.length) :
    get_word_pairs_rows (header :: dataRows)
      = dataRows.map (fun row => ⟨pyStrip (row.getD 0 ""), pyStrip (row.getD 1 "")⟩) ∧
    (get_word_pairs_rows (header :: dataRows)).length = dataRows.length := by
  have h1 : get_word_pairs_rows (header :: dataRows)
      = dataRows.map (fun row => ⟨pyStrip (row.getD 0 ""), pyStrip (row.getD 1 "")⟩) := by
    rw [get_word_pairs_rows]
    exact filterMap_row_pair dataRows h
  exact ⟨h1, by rw [h1, List.length_map]⟩

/-- Claim C6 witness: the amended parse theorem applied to a header plus two
wide rows, one of them with an empty first cell. -/
theorem get_word_pairs_one_per_wide_row_witness :
    (∀ row ∈ ([["Teh", "The"], ["", "missing"]] : List (List String)), 2 ≤ row.length) ∧
    (get_word_pairs_rows [["incorrect", "correct"], ["Teh", "The"], ["", "missing"]]
        = ([["Teh", "The"], ["", "missing"]] : List (List String)).map
            (fun row => ⟨pyStrip (row.getD 0 ""), pyStrip (row.getD 1 "")⟩) ∧
      (get_word_pairs_rows [["incorrect", "correct"], ["Teh", "The"], ["", "missing"]]).length
        = 2) :=
  ⟨by decide,
   get_word_pairs_one_per_wide_row ["incorrect", "correct"]
     [["Teh", "The"], ["", "missing"]] (by decide)⟩

/-- Claim C7 counterexample.  The claim states the no-data-rows error appears
exactly when zero valid rows exist, so a header plus only malformed rows
should produce it.  In the source `row_count` counts malformed rows too, so
the CSV below (header plus one malformed row) yields only the per-row error
and not the no-data-rows error. -/
theorem no_data_error_absent_for_malformed_only :
    validate_csv_format "incorrect,correct\n,onlybad\n"
      = ["Row 2: Both columns must have values"] ∧
    noDataMsg ∉ validate_csv_format "incorrect,correct\n,onlybad\n" := by
  decide

/-- Claim C7 as amended.  Validation accumulates all errors without
short-circuiting, and the no-data-rows error appears exactly when zero data
rows — well-formed or malformed — follow the header.  The concrete CSV shows
three accumulated errors (short header, short row, empty-cell row). -/
theorem no_data_error_iff_no_rows :
    (∀ (header : List String) (dataRows : List (List String)),
      noDataMsg ∈ validate_csv_format_rows (header :: dataRows) ↔ dataRows = []) ∧
    validate_csv_format "incorrect\nTeh\n,\n"
      = [headerMsg, "Row 2: Must have at least 2 columns",
         "Row 3: Both columns must have values"] :=
  ⟨noData_mem_iff, by decide⟩

/-- Claim C8.  Row numbering counts the header as row 1, so the first data
row is row 2: validating the scenario CSV returns exactly one error and it
references row 3 (the ",missing" row; "Teh,The" at row 2 is valid). -/
theorem row_numbering_scenario :
    validate_csv_format "incorrect,correct\nTeh,The\n,missing\n"
      = ["Row 3: Both columns must have values"] := by
  decide

/-- Claim C9.  Ledger accumulation is exact decimal arithmetic: one charge of
0.0123 increases the spend by exactly 0.0123, and 1000 successive charges of
0.0001 increase it by exactly 0.1, with no rounding drift. -/
theorem decimal_ledger_exact :
    (∀ u : User, (add_api_cost u (123/10000)).total_api_cost
        = u.total_api_cost + 123/10000) ∧
    (∀ u : User, (iterate_charge (1/10000) 1000 u).total_api_cost
        = u.total_api_cost + 1/10) := by
  refine ⟨fun u => rfl, fun u => ?_⟩
  rw [iterate_charge_total]
  norm_num

/-- Claim C10.  For every token counter, every positive token budget and every
input text, joining the chunks produced by `split_text` with a blank line
restores exactly the original text: chunking is lossless and
order-preserving. -/
theorem split_text_lossless (tok : List Char → Nat) (max_tokens : Nat)
    (text : List Char) (_hmax : 0 < max_tokens) :
    pyJoinSep ['\n', '\n'] (split_text tok max_tokens text) = text := by
  rw [split_text]
  obtain ⟨p, ps, hps⟩ := List.exists_cons_of_ne_nil (pySplit2_ne_nil '\n' '\n' text)
  rw [hps, split_text_go]
  simp only [List.isEmpty_nil, Bool.not_true, Bool.and_false, Bool.false_eq_true, if_false,
    List.nil_append]
  rw [pyJoin_split_text_go tok max_tokens ps [p] (0 + tok p) (by simp)]
  rw [show ([p] ++ ps) = p :: ps from rfl, ← hps, pyJoin_pySplit2]

/-- Claim C10 witness: losslessness at a concrete three-paragraph text under
the character-count fallback tokenizer and the default budget of 4000. -/
theorem split_text_lossless_witness :
    0 < 4000 ∧
    pyJoinSep ['\n', '\n'] (split_text (fun l => l.length / 4) 4000
        ("First paragraph.\n\nSecond paragraph.\n\nThird.").data)
      = ("First paragraph.\n\nSecond paragraph.\n\nThird.").data :=
  ⟨by decide,
   split_text_lossless (fun l => l.length / 4) 4000
     ("First paragraph.\n\nSecond paragraph.\n\nThird.").data (by decide)⟩
